import Mathlib

/-!
# Verification of the subscription service's store and cost calculator

Shallow embedding of the in-memory subscription repository
(`MockSubscriptionRepository` in the Go source) and of the SQL
repository's `Update`/`Delete` SET-clause logic, together with proofs
about the cost-calculation algorithm, the filter semantics, the CRUD
error behaviour and the id invariants.

Conventions:
* Go `int` is modelled as `Int`; timestamps (`time.Now()`) are passed in
  explicitly as a `Nat` clock value.
* A Go `map[string]T` is modelled as an association list
  `List (String × T)` with replace-on-insert semantics; reachable stores
  have pairwise-distinct keys.
* `time.Parse("01-2006", s)` succeeds exactly on strings `MM-YYYY` with a
  two-digit month `01`..`12` and a four-digit year, yielding the first of
  that month; comparisons between such dates are comparisons of the
  linear month ordinal `year*12 + month`.
-/

/-- A calendar month: the value produced by parsing an `MM-YYYY` string. -/
structure Month where
  month : Nat
  year  : Nat
  deriving DecidableEq, Repr

/-- Linear month ordinal; ordering of first-of-month dates agrees with it. -/
def monthIndex (m : Month) : Nat :=
  m.year * 12 + m.month

/-- Numeric value of a decimal digit character, `none` for other characters. -/
def charDigit (c : Char) : Option Nat :=
  if 48 ≤ c.toNat ∧ c.toNat ≤ 57 then some (c.toNat - 48) else none

/-- Decimal digit character for a digit value. -/
def digitChar (d : Nat) : Char :=
  Char.ofNat (48 + d)

/-- Embedding of Go `time.Parse("01-2006", s)`: the layout demands exactly
two month digits (value 01..12), a literal hyphen and exactly four year
digits, consuming the whole string. -/
def parseMonthYear (s : String) : Option Month :=
  match s.data with
  | [m1, m2, '-', y1, y2, y3, y4] =>
    match charDigit m1, charDigit m2, charDigit y1, charDigit y2,
        charDigit y3, charDigit y4 with
    | some a, some b, some c, some d, some e, some f =>
      let mo := a * 10 + b
      if 1 ≤ mo ∧ mo ≤ 12 then
        some { month := mo, year := ((c * 10 + d) * 10 + e) * 10 + f }
      else
        none
    | _, _, _, _, _, _ => none
  | _ => none

/-- A UUID value, identified with its 32 lowercase hex digits. -/
abbrev UUIDVal := String

/-- `uuid.Nil`, the all-zero UUID. -/
def uuidNil : UUIDVal := "00000000000000000000000000000000"

/-- Hexadecimal digit test, as used by UUID parsing. -/
def isHexChar (c : Char) : Bool :=
  (48 ≤ c.toNat && c.toNat ≤ 57) ||
  (97 ≤ c.toNat && c.toNat ≤ 102) ||
  (65 ≤ c.toNat && c.toNat ≤ 70)

/-- Lowercase an ASCII hex character. -/
def hexLower (c : Char) : Char :=
  if 65 ≤ c.toNat ∧ c.toNat ≤ 70 then Char.ofNat (c.toNat + 32) else c

/-- Modelled from the google/uuid library contract (external to this
repository): `uuid.Parse` accepts the canonical `8-4-4-4-12` hex form and
yields the 16-byte UUID value, modelled here as the lowercase hex string;
the additional urn-prefixed, braced and hyphenless input forms the library
also accepts are not exercised by any claim. -/
def uuidParse (s : String) : Option UUIDVal :=
  let l := s.data
  if l.length = 36 then
    let groups := [l.take 8, (l.drop 9).take 4, (l.drop 14).take 4,
                   (l.drop 19).take 4, l.drop 24]
    let seps := [l.drop 8, l.drop 13, l.drop 18, l.drop 23]
    if seps.all (fun g => g.headD 'x' = '-') then
      let hx := groups.flatten
      if hx.all isHexChar then some (String.mk (hx.map hexLower)) else none
    else none
  else none

/-- The `models.Subscription` record. -/
structure Subscription where
  ID          : Int
  ServiceName : String
  Price       : Int
  UserID      : UUIDVal
  StartDate   : String
  EndDate     : Option String
  CreatedAt   : Nat
  UpdatedAt   : Nat
  deriving DecidableEq, Repr

/-- The mock repository's `map[string]models.Subscription`. -/
abbrev Store := List (String × Subscription)

/-- Map read: first entry with the given key. -/
def lookupKey (k : String) : Store → Option Subscription
  | [] => none
  | (k', v) :: t => if k' = k then some v else lookupKey k t

/-- Map assignment `m[k] = v`: replace the entry if present, else append. -/
def insertKey (k : String) (v : Subscription) : Store → Store
  | [] => [(k, v)]
  | (k', v') :: t => if k' = k then (k, v) :: t else (k', v') :: insertKey k v t

/-- Map deletion `delete(m, k)`. -/
def eraseKey (k : String) : Store → Store
  | [] => []
  | (k', v') :: t => if k' = k then t else (k', v') :: eraseKey k t

/-- Little-endian decimal digits, with enough fuel to terminate. -/
def natDigitsAux : Nat → Nat → List Nat
  | 0, _ => []
  | _ + 1, 0 => []
  | fuel + 1, n + 1 => ((n + 1) % 10) :: natDigitsAux fuel ((n + 1) / 10)

/-- Decimal digit characters of a natural number, most significant first. -/
def natChars (n : Nat) : List Char :=
  if n = 0 then ['0'] else ((natDigitsAux n n).map digitChar).reverse

/-- Digit values of a character list, failing on any non-digit. -/
def charsToDigits : List Char → Option (List Nat)
  | [] => some []
  | c :: cs =>
    match charDigit c, charsToDigits cs with
    | some d, some ds => some (d :: ds)
    | _, _ => none

/-- Parse a non-empty all-digit character list as a natural number. -/
def parseNatChars (l : List Char) : Option Nat :=
  match charsToDigits l with
  | some [] => none
  | some ds => some (Nat.ofDigits 10 ds.reverse)
  | none => none

/-- Embedding of Go `strconv.Itoa` on the modelled `int`. -/
def itoa (n : Int) : String :=
  String.mk (if n < 0 then '-' :: natChars (-n).toNat else natChars n.toNat)

/-- Embedding of Go `strconv.Atoi`: `none` models a returned error (in
which case `Atoi` yields value `0`, recovered with `(atoi s).getD 0`). -/
def atoi (s : String) : Option Int :=
  match s.data with
  | [] => none
  | c :: rest =>
    if c = '-' then (parseNatChars rest).map (fun n => -(Int.ofNat n))
    else if c = '+' then (parseNatChars rest).map Int.ofNat
    else (parseNatChars (c :: rest)).map Int.ofNat

/-- `MockSubscriptionRepository.Create`: assign `len+1` as id when the
caller supplied id `0`, stamp both timestamps with the current clock and
store the record under the decimal rendering of its id. -/
def mockCreate (store : Store) (sub : Subscription) (now : Nat) :
    Store × Subscription :=
  let sub1 := if sub.ID = 0 then { sub with ID := (store.length : Int) + 1 } else sub
  let sub2 := { sub1 with CreatedAt := now, UpdatedAt := now }
  (insertKey (itoa sub2.ID) sub2 store, sub2)

/-- `MockSubscriptionRepository.GetByID`. -/
def mockGetByID (store : Store) (id : String) : Except String Subscription :=
  match lookupKey id store with
  | none => .error "subscription not found"
  | some sub => .ok sub

/-- `MockSubscriptionRepository.List`: a non-empty user filter is parsed
as a UUID, an unparseable one skips every record; a non-empty service
filter demands an exact name match. -/
def mockList (store : Store) (userID serviceName : String) : List Subscription :=
  store.foldl
    (fun result e =>
      let sub := e.2
      if userID ≠ "" then
        match uuidParse userID with
        | none => result
        | some uid =>
          if sub.UserID ≠ uid then result
          else if serviceName ≠ "" ∧ sub.ServiceName ≠ serviceName then result
          else result ++ [sub]
      else if serviceName ≠ "" ∧ sub.ServiceName ≠ serviceName then result
      else result ++ [sub])
    []

/-- `MockSubscriptionRepository.Update`: replace the whole stored record
with the supplied one, forcing its id back to `Atoi(id)` and refreshing
`UpdatedAt`; the store is returned unchanged on a missing id. -/
def mockUpdate (store : Store) (id : String) (sub : Subscription) (now : Nat) :
    Store × Except String Subscription :=
  match lookupKey id store with
  | none => (store, .error "subscription not found")
  | some _ =>
    let sub2 := { sub with ID := (atoi id).getD 0, UpdatedAt := now }
    (insertKey id sub2 store, .ok sub2)

/-- `MockSubscriptionRepository.Delete`: remove the entry, erroring and
leaving the store unchanged on a missing id. -/
def mockDelete (store : Store) (id : String) : Store × Except String Unit :=
  match lookupKey id store with
  | none => (store, .error "subscription not found")
  | some _ => (eraseKey id store, .ok ())

/-- Per-record body of the `CalculateTotalCost` loop: contribution of one
subscription given the parsed window `[startM, endM]`. A record whose
start date does not parse is skipped (`continue`); a record starting
after the window end is skipped; the effective start is the later of the
two starts, the effective end is the record end when it parses and lies
strictly before the window end, else the window end; the month count is
inclusive and only positive counts contribute. -/
def subCost (endM startM : Month) (sub : Subscription) : Int :=
  match parseMonthYear sub.StartDate with
  | none => 0
  | some s =>
    if monthIndex endM < monthIndex s then 0
    else
      let effStart := if monthIndex startM < monthIndex s then s else startM
      let effEnd :=
        match sub.EndDate with
        | none => endM
        | some es =>
          match parseMonthYear es with
          | none => endM
          | some e => if monthIndex e < monthIndex endM then e else endM
      let m : Int := ((effEnd.year : Int) - effStart.year) * 12 +
        ((effEnd.month : Int) - effStart.month) + 1
      if 0 < m then sub.Price * m else 0

/-- `MockSubscriptionRepository.CalculateTotalCost`: parse both periods,
reject a reversed window, then fold the per-record contribution over the
filtered listing. -/
def mockCalculateTotalCost (store : Store)
    (userID serviceName startPeriod endPeriod : String) : Except String Int :=
  match parseMonthYear startPeriod with
  | none => .error "invalid start period format"
  | some startM =>
    match parseMonthYear endPeriod with
    | none => .error "invalid end period format"
    | some endM =>
      if monthIndex endM < monthIndex startM then
        .error "start period cannot be after end period"
      else
        .ok ((mockList store userID serviceName).foldl
          (fun acc sub => acc + subCost endM startM sub) 0)

/-- Spec-side contribution of one record, written from the specification:
`effective_start = max(record.start_period, start_period)`,
`effective_end = min(record.end_period or +infinity, end_period)`,
`months_overlap = month_index(effective_end) - month_index(effective_start) + 1`,
contributing `price * months_overlap` when positive and 0 otherwise. -/
def specContribution (w1 w2 : Month) (price : Int) (s : Month) (e : Option Month) : Int :=
  let es := max (monthIndex s) (monthIndex w1)
  let ee :=
    match e with
    | none => monthIndex w2
    | some em => min (monthIndex em) (monthIndex w2)
  let months : Int := (ee : Int) - (es : Int) + 1
  if 0 < months then price * months else 0

/-- A stored record corresponds to an abstract `(price, start, end)`
triple of the data model: the price agrees, the start date parses to the
start month, and the end date is absent or parses to the end month. -/
def recAbs (r : Subscription) (x : Int × Month × Option Month) : Prop :=
  r.Price = x.1 ∧ parseMonthYear r.StartDate = some x.2.1 ∧
    ((r.EndDate = none ∧ x.2.2 = none) ∨
      (∃ es e, r.EndDate = some es ∧ parseMonthYear es = some e ∧ x.2.2 = some e))

/-- The records held by a store, in entry order. -/
def storeSubs (store : Store) : List Subscription :=
  store.map Prod.snd

/-- The `models.UpdateSubscriptionRequest` body: empty string, `nil`
pointer and `uuid.Nil` are the wire sentinels for an omitted field. -/
structure UpdateSubscriptionRequest where
  ServiceName : String
  Price       : Option Int
  UserID      : UUIDVal
  StartDate   : String
  EndDate     : Option String
  deriving DecidableEq, Repr

/-- The relational `subscriptions` table, keyed by the integer id. -/
abbrev SqlTable := List (Int × Subscription)

/-- Row fetched by `WHERE id = $1`. -/
def sqlLookup (id : Int) : SqlTable → Option Subscription
  | [] => none
  | (k, v) :: t => if k = id then some v else sqlLookup id t

/-- Effect on one row of the SET clauses built by
`SubscriptionRepository.Update`: `service_name`, `price`, `user_id` and
`start_date` are included only when the request field is not its omission
sentinel, while `end_date` and `updated_at` are always included. -/
def applyUpdateReq (r : Subscription) (req : UpdateSubscriptionRequest)
    (now : Nat) : Subscription :=
  { r with
    ServiceName := if req.ServiceName ≠ "" then req.ServiceName else r.ServiceName
    Price := match req.Price with | some p => p | none => r.Price
    UserID := if req.UserID ≠ uuidNil then req.UserID else r.UserID
    StartDate := if req.StartDate ≠ "" then req.StartDate else r.StartDate
    EndDate := req.EndDate
    UpdatedAt := now }

/-- `SubscriptionRepository.Update` under standard SQL UPDATE semantics:
every row matching the id is rewritten by the SET clauses, and zero
affected rows is reported as "subscription not found". -/
def sqlUpdate (t : SqlTable) (id : Int) (req : UpdateSubscriptionRequest)
    (now : Nat) : Except String SqlTable :=
  if t.any (fun e => e.1 = id) then
    .ok (t.map (fun e => if e.1 = id then (e.1, applyUpdateReq e.2 req now) else e))
  else
    .error "subscription not found"

/-- `SubscriptionRepository.Delete`: remove the matching rows, reporting
zero affected rows as "subscription not found". -/
def sqlDelete (t : SqlTable) (id : Int) : Except String SqlTable :=
  if t.any (fun e => e.1 = id) then
    .ok (t.filter (fun e => e.1 != id))
  else
    .error "subscription not found"

/-- A mutating operation on the mock store. -/
inductive StoreOp where
  | create (sub : Subscription) (now : Nat)
  | update (id : String) (sub : Subscription) (now : Nat)
  | del    (id : String)

/-- State transition of one store operation (result values discarded). -/
def applyOp (store : Store) : StoreOp → Store
  | .create sub now => (mockCreate store sub now).1
  | .update id sub now => (mockUpdate store id sub now).1
  | .del id => (mockDelete store id).1

/-- Store reached from the empty store by a sequence of operations. -/
def runOps (ops : List StoreOp) : Store :=
  ops.foldl applyOp []

/-- Key/id coherence invariant of the mock store: every entry is keyed by
the decimal rendering of its record's id, and keys are pairwise distinct. -/
def StoreInv (store : Store) : Prop :=
  (∀ e ∈ store, e.1 = itoa e.2.ID) ∧ (store.map Prod.fst).Nodup

/-- UUID value of the sample user from the repository's README. -/
def userA : UUIDVal := "60601fee2bf14721ae6f7636e79a0cba"

/-- The Netflix subscription of the end-to-end scenario. -/
def netflix : Subscription :=
  { ID := 1, ServiceName := "Netflix", Price := 700, UserID := userA,
    StartDate := "01-2024", EndDate := none, CreatedAt := 0, UpdatedAt := 0 }

/-- The Spotify subscription of the end-to-end scenario. -/
def spotify : Subscription :=
  { ID := 2, ServiceName := "Spotify", Price := 199, UserID := userA,
    StartDate := "02-2024", EndDate := none, CreatedAt := 0, UpdatedAt := 0 }

/-- Store holding exactly the two open-ended subscriptions of the
end-to-end scenario, as left by two `Create` calls on an empty store. -/
def demoStore : Store := [("1", netflix), ("2", spotify)]

/-- Abstract data-model view of `demoStore`. -/
def demoAbs : List (Int × Month × Option Month) :=
  [(700, ⟨1, 2024⟩, none), (199, ⟨2, 2024⟩, none)]

/-- A stored SQL row with an end date set. -/
def demoRow : Subscription :=
  { ID := 1, ServiceName := "Netflix", Price := 700, UserID := userA,
    StartDate := "01-2024", EndDate := some "12-2024", CreatedAt := 0, UpdatedAt := 0 }

/-- Single-row SQL table holding `demoRow`. -/
def demoTable : SqlTable := [(1, demoRow)]

/-- The update request with every field omitted (all wire sentinels). -/
def emptyUpdateReq : UpdateSubscriptionRequest :=
  { ServiceName := "", Price := none, UserID := uuidNil, StartDate := "", EndDate := none }

/-- `demoRow` after `sqlUpdate` with `emptyUpdateReq` at clock 5. -/
def demoRowCleared : Subscription :=
  { demoRow with EndDate := none, UpdatedAt := 5 }

theorem charDigit_digitChar {d : Nat} (hd : d < 10) :
    charDigit (digitChar d) = some d := by
  interval_cases d <;> decide

theorem digitChar_toNat {d : Nat} (hd : d < 10) :
    (digitChar d).toNat = 48 + d := by
  interval_cases d <;> decide

theorem charsToDigits_map_digitChar {l : List Nat} (h : ∀ d ∈ l, d < 10) :
    charsToDigits (l.map digitChar) = some l := by
  induction l with
  | nil => rfl
  | cons d t ih =>
    have hd : d < 10 := h d (List.mem_cons_self d t)
    have ht : ∀ x ∈ t, x < 10 := fun x hx => h x (List.mem_cons_of_mem d hx)
    simp [charsToDigits, charDigit_digitChar hd, ih ht]

theorem natDigitsAux_eq_digits (fuel n : Nat) (h : n ≤ fuel) :
    natDigitsAux fuel n = Nat.digits 10 n := by
  induction fuel generalizing n with
  | zero =>
    have : n = 0 := Nat.le_zero.mp h
    subst this; simp [natDigitsAux]
  | succ fuel ih =>
    match n with
    | 0 => simp [natDigitsAux]
    | m + 1 =>
      rw [show natDigitsAux (fuel + 1) (m + 1)
          = ((m + 1) % 10) :: natDigitsAux fuel ((m + 1) / 10) from rfl]
      rw [ih ((m + 1) / 10) (by omega)]
      rw [Nat.digits_def' (by norm_num : 1 < 10) (Nat.succ_pos m)]

theorem natChars_eq_digits {n : Nat} (hn : n ≠ 0) :
    natChars n = ((Nat.digits 10 n).map digitChar).reverse := by
  rw [natChars, if_neg hn, natDigitsAux_eq_digits n n le_rfl]

theorem parseNatChars_natChars (n : Nat) :
    parseNatChars (natChars n) = some n := by
  by_cases hn : n = 0
  · subst hn; decide
  · have hdig : ∀ d ∈ (Nat.digits 10 n).reverse, d < 10 := by
      intro d hd
      exact Nat.digits_lt_base (by norm_num) (List.mem_reverse.mp hd)
    have hne : Nat.digits 10 n ≠ [] := Nat.digits_ne_nil_iff_ne_zero.mpr hn
    have hrw : natChars n = ((Nat.digits 10 n).reverse).map digitChar := by
      simp [natChars_eq_digits hn, List.map_reverse]
    rw [hrw]
    unfold parseNatChars
    rw [charsToDigits_map_digitChar hdig]
    have hrevne : (Nat.digits 10 n).reverse ≠ [] := by
      simpa using hne
    match hrev : (Nat.digits 10 n).reverse with
    | [] => exact absurd hrev hrevne
    | d :: ds =>
      simp only []
      rw [← hrev, List.reverse_reverse, Nat.ofDigits_digits]

theorem natChars_isDigit {n : Nat} {c : Char} (hc : c ∈ natChars n) :
    48 ≤ c.toNat ∧ c.toNat ≤ 57 := by
  by_cases hn : n = 0
  · subst hn
    rw [show natChars 0 = ['0'] from rfl, List.mem_singleton] at hc
    subst hc; decide
  · simp only [natChars_eq_digits hn, List.mem_reverse, List.mem_map] at hc
    obtain ⟨d, hd, rfl⟩ := hc
    have : d < 10 := Nat.digits_lt_base (by norm_num) hd
    rw [digitChar_toNat this]
    omega

theorem atoi_itoa (n : Int) : atoi (itoa n) = some n := by
  unfold itoa atoi
  by_cases hn : n < 0
  · rw [if_pos hn]
    show (match '-' :: natChars (-n).toNat with
      | [] => none
      | c :: rest =>
        if c = '-' then (parseNatChars rest).map (fun n => -(Int.ofNat n))
        else if c = '+' then (parseNatChars rest).map Int.ofNat
        else (parseNatChars (c :: rest)).map Int.ofNat) = some n
    simp only [if_pos rfl, parseNatChars_natChars, Option.map_some',
      Int.ofNat_eq_natCast, Int.toNat_of_nonneg (by omega : (0:Int) ≤ -n), neg_neg,
      if_true]
  · rw [if_neg hn]
    have hne : natChars n.toNat ≠ [] := by
      by_cases h0 : n.toNat = 0
      · simp [natChars, h0]
      · simp only [natChars_eq_digits h0]
        simpa using Nat.digits_ne_nil_iff_ne_zero.mpr h0
    match hm : natChars n.toNat with
    | [] => exact absurd hm hne
    | c :: cs =>
      have hcd : 48 ≤ c.toNat ∧ c.toNat ≤ 57 :=
        natChars_isDigit
          (show c ∈ natChars n.toNat by rw [hm]; exact List.mem_cons_self c cs)
      have hcm : ¬ c = '-' := by
        intro h; subst h; revert hcd; decide
      have hcp : ¬ c = '+' := by
        intro h; subst h; revert hcd; decide
      show (match c :: cs with
        | [] => none
        | c :: rest =>
          if c = '-' then (parseNatChars rest).map (fun n => -(Int.ofNat n))
          else if c = '+' then (parseNatChars rest).map Int.ofNat
          else (parseNatChars (c :: rest)).map Int.ofNat) = some n
      simp only [if_neg hcm, if_neg hcp]
      rw [← hm, parseNatChars_natChars, Option.map_some']
      congr 1
      simp only [Int.ofNat_eq_natCast]
      omega

theorem itoa_injective {a b : Int} (h : itoa a = itoa b) : a = b := by
  have := atoi_itoa a
  rw [h, atoi_itoa b] at this
  exact (Option.some.injEq _ _ ▸ this).symm

theorem lookupKey_insertKey (k k' : String) (v : Subscription) (s : Store) :
    lookupKey k (insertKey k' v s) = if k' = k then some v else lookupKey k s := by
  induction s with
  | nil => simp [insertKey, lookupKey]
  | cons e t ih =>
    obtain ⟨ke, ve⟩ := e
    by_cases h1 : ke = k'
    · by_cases h2 : k' = k <;> simp [insertKey, lookupKey, h1, h2]
    · by_cases h2 : ke = k
      · have h3 : ¬ k' = k := fun hh => h1 (h2.trans hh.symm)
        have h4 : ¬ k = k' := fun hh => h3 hh.symm
        simp [insertKey, lookupKey, h1, h2, h3, h4]
      · simp [insertKey, lookupKey, h1, h2, ih]

theorem lookupKey_some_mem {k : String} {v : Subscription} {s : Store}
    (h : lookupKey k s = some v) : (k, v) ∈ s := by
  induction s with
  | nil => simp [lookupKey] at h
  | cons e t ih =>
    obtain ⟨ke, ve⟩ := e
    by_cases hk : ke = k
    · subst hk
      rw [show lookupKey ke ((ke, ve) :: t) = some ve from by simp [lookupKey]] at h
      injection h with h
      subst h
      exact List.mem_cons_self _ _
    · simp only [lookupKey, if_neg hk] at h
      exact List.mem_cons_of_mem _ (ih h)

theorem mem_insertKey {e : String × Subscription} {k : String}
    {v : Subscription} {s : Store} (h : e ∈ insertKey k v s) :
    e = (k, v) ∨ e ∈ s := by
  induction s with
  | nil => simpa [insertKey] using h
  | cons e' t ih =>
    obtain ⟨ke, ve⟩ := e'
    by_cases hk : ke = k
    · rw [show insertKey k v ((ke, ve) :: t) = (k, v) :: t from by
        simp [insertKey, hk]] at h
      rcases List.mem_cons.mp h with h | h
      · exact Or.inl h
      · exact Or.inr (List.mem_cons_of_mem _ h)
    · rw [show insertKey k v ((ke, ve) :: t) = (ke, ve) :: insertKey k v t from by
        simp [insertKey, hk]] at h
      rcases List.mem_cons.mp h with h | h
      · exact Or.inr (by simp [h])
      · rcases ih h with h' | h'
        · exact Or.inl h'
        · exact Or.inr (List.mem_cons_of_mem _ h')

theorem mem_keys_insertKey {x k : String} {v : Subscription} {s : Store} :
    x ∈ (insertKey k v s).map Prod.fst ↔ x = k ∨ x ∈ s.map Prod.fst := by
  induction s with
  | nil => simp [insertKey, eq_comm]
  | cons e t ih =>
    obtain ⟨ke, ve⟩ := e
    by_cases hk : ke = k
    · rw [show insertKey k v ((ke, ve) :: t) = (k, v) :: t from by
        simp [insertKey, hk]]
      subst hk
      simp only [List.map_cons, List.mem_cons]
      tauto
    · rw [show insertKey k v ((ke, ve) :: t) = (ke, ve) :: insertKey k v t from by
        simp [insertKey, hk]]
      simp only [List.map_cons, List.mem_cons, ih]
      tauto

theorem keys_insertKey_nodup {k : String} {v : Subscription} {s : Store}
    (h : (s.map Prod.fst).Nodup) :
    ((insertKey k v s).map Prod.fst).Nodup := by
  induction s with
  | nil => simp [insertKey]
  | cons e t ih =>
    obtain ⟨ke, ve⟩ := e
    simp only [List.map_cons, List.nodup_cons] at h
    by_cases hk : ke = k
    · rw [show insertKey k v ((ke, ve) :: t) = (k, v) :: t from by
        simp [insertKey, hk]]
      simp only [List.map_cons, List.nodup_cons]
      exact ⟨hk ▸ h.1, h.2⟩
    · rw [show insertKey k v ((ke, ve) :: t) = (ke, ve) :: insertKey k v t from by
        simp [insertKey, hk]]
      simp only [List.map_cons, List.nodup_cons, mem_keys_insertKey]
      refine ⟨?_, ih h.2⟩
      rintro (h' | h')
      · exact hk h'
      · exact h.1 h'

theorem eraseKey_sublist (k : String) (s : Store) : (eraseKey k s).Sublist s := by
  induction s with
  | nil => simp [eraseKey]
  | cons e t ih =>
    obtain ⟨ke, ve⟩ := e
    by_cases hk : ke = k
    · rw [show eraseKey k ((ke, ve) :: t) = t from by simp [eraseKey, hk]]
      exact List.sublist_cons_self (ke, ve) t
    · rw [show eraseKey k ((ke, ve) :: t) = (ke, ve) :: eraseKey k t from by
        simp [eraseKey, hk]]
      exact ih.cons₂ (ke, ve)

theorem keys_eraseKey_nodup {k : String} {s : Store}
    (h : (s.map Prod.fst).Nodup) : ((eraseKey k s).map Prod.fst).Nodup :=
  ((eraseKey_sublist k s).map Prod.fst).nodup h

theorem lookupKey_eraseKey_self {k : String} {s : Store}
    (h : (s.map Prod.fst).Nodup) : lookupKey k (eraseKey k s) = none := by
  induction s with
  | nil => rfl
  | cons e t ih =>
    obtain ⟨ke, ve⟩ := e
    simp only [List.map_cons, List.nodup_cons] at h
    by_cases hk : ke = k
    · subst hk
      rw [show eraseKey ke ((ke, ve) :: t) = t from by simp [eraseKey]]
      match hl : lookupKey ke t with
      | none => rfl
      | some v => exact absurd (List.mem_map_of_mem Prod.fst (lookupKey_some_mem hl)) h.1
    · rw [show eraseKey k ((ke, ve) :: t) = (ke, ve) :: eraseKey k t from by
        simp [eraseKey, hk]]
      rw [show lookupKey k ((ke, ve) :: eraseKey k t) = lookupKey k (eraseKey k t) from by
        simp [lookupKey, hk]]
      exact ih h.2

theorem lookupKey_eraseKey_ne {k k' : String} {s : Store} (h : ¬ k' = k) :
    lookupKey k (eraseKey k' s) = lookupKey k s := by
  induction s with
  | nil => rfl
  | cons e t ih =>
    obtain ⟨ke, ve⟩ := e
    by_cases hk : ke = k'
    · have h2 : ¬ ke = k := fun hh => h (hk.symm.trans hh)
      rw [show eraseKey k' ((ke, ve) :: t) = t from by simp [eraseKey, hk]]
      rw [show lookupKey k ((ke, ve) :: t) = lookupKey k t from by simp [lookupKey, h2]]
    · rw [show eraseKey k' ((ke, ve) :: t) = (ke, ve) :: eraseKey k' t from by
        simp [eraseKey, hk]]
      by_cases hkk : ke = k <;> simp [lookupKey, hkk, ih]

/-- Predicate characterisation of one iteration of the `List` loop. -/
def listPred (userID serviceName : String) (sub : Subscription) : Bool :=
  if userID ≠ "" then
    match uuidParse userID with
    | none => false
    | some uid =>
      if sub.UserID ≠ uid then false
      else if serviceName ≠ "" ∧ sub.ServiceName ≠ serviceName then false
      else true
  else if serviceName ≠ "" ∧ sub.ServiceName ≠ serviceName then false
  else true

theorem mockList_go (u svc : String) (s : Store) (acc : List Subscription) :
    s.foldl
      (fun result e =>
        let sub := e.2
        if u ≠ "" then
          match uuidParse u with
          | none => result
          | some uid =>
            if sub.UserID ≠ uid then result
            else if svc ≠ "" ∧ sub.ServiceName ≠ svc then result
            else result ++ [sub]
        else if svc ≠ "" ∧ sub.ServiceName ≠ svc then result
        else result ++ [sub])
      acc = acc ++ (s.map Prod.snd).filter (listPred u svc) := by
  induction s generalizing acc with
  | nil => simp
  | cons e t ih =>
    rw [List.foldl_cons, ih, List.map_cons, List.filter_cons]
    by_cases hu : u = ""
    · subst hu
      by_cases hsvc : svc ≠ "" ∧ e.2.ServiceName ≠ svc <;>
        simp [listPred, hsvc]
    · match hp : uuidParse u with
      | none => simp [listPred, hu, hp]
      | some uid =>
        by_cases huid : e.2.UserID ≠ uid
        · simp [listPred, hu, hp, huid]
        · by_cases hsvc : svc ≠ "" ∧ e.2.ServiceName ≠ svc <;>
            simp [listPred, hu, hp, huid, hsvc]

theorem mockList_eq_filter (s : Store) (u svc : String) :
    mockList s u svc = (s.map Prod.snd).filter (listPred u svc) := by
  unfold mockList
  rw [mockList_go u svc s []]
  simp

theorem listPred_iff (u svc : String) (r : Subscription) :
    listPred u svc r = true ↔
      (u = "" ∨ ∃ uid, uuidParse u = some uid ∧ r.UserID = uid) ∧
      (svc = "" ∨ r.ServiceName = svc) := by
  by_cases hu : u = ""
  · subst hu
    by_cases hsvc : svc = "" <;>
      by_cases hname : r.ServiceName = svc <;>
        simp [listPred, hsvc, hname]
  · match hp : uuidParse u with
    | none => simp [listPred, hu, hp]
    | some uid =>
      by_cases huid : r.UserID = uid <;>
        by_cases hsvc : svc = "" <;>
          by_cases hname : r.ServiceName = svc <;>
            simp [listPred, hu, hp, huid, hsvc, hname]

theorem foldl_add_eq_sum (f : Subscription → Int) (l : List Subscription) :
    ∀ init : Int,
      l.foldl (fun acc sub => acc + f sub) init = init + (l.map f).sum := by
  induction l with
  | nil => simp
  | cons a t ih =>
    intro init
    simp only [List.foldl_cons, List.map_cons, List.sum_cons, ih, add_assoc]

theorem subCost_eq_spec {a b : Month} {r : Subscription} {price : Int}
    {s : Month} {e : Option Month} (h : recAbs r (price, s, e)) :
    subCost b a r = specContribution a b price s e := by
  obtain ⟨hp, hs, hend⟩ := h
  rcases hend with ⟨he, hx⟩ | ⟨es, e', he, hpe, hx⟩
  · subst hx
    simp only [subCost, specContribution, hs, he]
    split_ifs <;>
      first
        | rfl
        | (rw [hp]; congr 1; simp only [monthIndex, Nat.max_def, Nat.min_def] at *;
           push_cast at *; (try split_ifs at *) <;> omega)
        | (exfalso; simp only [monthIndex, Nat.max_def, Nat.min_def] at *;
           push_cast at *; (try split_ifs at *) <;> omega)
  · subst hx
    simp only [subCost, specContribution, hs, he, hpe]
    split_ifs <;>
      first
        | rfl
        | (rw [hp]; congr 1; simp only [monthIndex, Nat.max_def, Nat.min_def] at *;
           push_cast at *; (try split_ifs at *) <;> omega)
        | (exfalso; simp only [monthIndex, Nat.max_def, Nat.min_def] at *;
           push_cast at *; (try split_ifs at *) <;> omega)

theorem listPred_empty (r : Subscription) : listPred "" "" r = true := by
  simp [listPred]

theorem mockList_no_filters (store : Store) :
    mockList store "" "" = storeSubs store := by
  rw [mockList_eq_filter]
  exact List.filter_eq_self.mpr (fun r _ => listPred_empty r)

theorem sum_subCost_eq_spec {a b : Month} {l : List Subscription}
    {abs : List (Int × Month × Option Month)} (h : List.Forall₂ recAbs l abs) :
    (l.map (subCost b a)).sum =
      (abs.map fun x => specContribution a b x.1 x.2.1 x.2.2).sum := by
  induction h with
  | nil => rfl
  | cons hr hrest ih =>
    simp only [List.map_cons, List.sum_cons, ih, subCost_eq_spec hr]

theorem sqlLookup_none_any {id : Int} {t : SqlTable}
    (h : sqlLookup id t = none) : t.any (fun e => e.1 = id) = false := by
  induction t with
  | nil => rfl
  | cons e tail ih =>
    obtain ⟨k, v⟩ := e
    by_cases hk : k = id
    · simp [sqlLookup, hk] at h
    · simp only [sqlLookup, if_neg hk] at h
      simp [List.any_cons, hk, ih h]

theorem sqlLookup_some_any {id : Int} {t : SqlTable} {r : Subscription}
    (h : sqlLookup id t = some r) : t.any (fun e => e.1 = id) = true := by
  induction t with
  | nil => simp [sqlLookup] at h
  | cons e tail ih =>
    obtain ⟨k, v⟩ := e
    by_cases hk : k = id
    · simp [List.any_cons, hk]
    · simp only [sqlLookup, if_neg hk] at h
      simp [List.any_cons, ih h]

theorem sqlLookup_map_update {id : Int} {t : SqlTable} {r : Subscription}
    (req : UpdateSubscriptionRequest) (now : Nat)
    (h : sqlLookup id t = some r) :
    sqlLookup id
      (t.map (fun e => if e.1 = id then (e.1, applyUpdateReq e.2 req now) else e)) =
      some (applyUpdateReq r req now) := by
  induction t with
  | nil => simp [sqlLookup] at h
  | cons e tail ih =>
    obtain ⟨k, v⟩ := e
    rw [List.map_cons]
    by_cases hk : k = id
    · subst hk
      rw [show sqlLookup k ((k, v) :: tail) = some v from by simp [sqlLookup]] at h
      injection h with h
      subst h
      have he : (if (k, v).1 = k then ((k, v).1, applyUpdateReq (k, v).2 req now) else (k, v))
          = (k, applyUpdateReq v req now) := by simp
      rw [he]
      simp [sqlLookup]
    · simp only [sqlLookup, if_neg hk] at h
      have he : (if (k, v).1 = id then ((k, v).1, applyUpdateReq (k, v).2 req now) else (k, v))
          = (k, v) := by simp [hk]
      rw [he]
      rw [show ∀ rest, sqlLookup id ((k, v) :: rest) = sqlLookup id rest from
        fun rest => by simp [sqlLookup, hk]]
      exact ih h

theorem nodup_keys_lookup_eq {S : Store} (hnd : (S.map Prod.fst).Nodup)
    {k : String} {v1 v2 : Subscription} (h1 : (k, v1) ∈ S) (h2 : (k, v2) ∈ S) :
    v1 = v2 := by
  induction S with
  | nil => simp at h1
  | cons e t ih =>
    obtain ⟨ke, ve⟩ := e
    simp only [List.map_cons, List.nodup_cons] at hnd
    rcases List.mem_cons.mp h1 with h1' | h1' <;>
      rcases List.mem_cons.mp h2 with h2' | h2'
    · rw [Prod.mk.injEq] at h1' h2'
      rw [h1'.2, h2'.2]
    · rw [Prod.mk.injEq] at h1'
      exact absurd (List.mem_map_of_mem Prod.fst (h1'.1 ▸ h2')) hnd.1
    · rw [Prod.mk.injEq] at h2'
      exact absurd (List.mem_map_of_mem Prod.fst (h2'.1 ▸ h1')) hnd.1
    · exact ih hnd.2 h1' h2'

theorem storeInv_uniq {S : Store} (h : StoreInv S) :
    ∀ e1 ∈ S, ∀ e2 ∈ S, e1.2.ID = e2.2.ID → e1 = e2 := by
  rintro ⟨k1, v1⟩ h1 ⟨k2, v2⟩ h2 hid
  have hk1 : k1 = itoa v1.ID := h.1 _ h1
  have hk2 : k2 = itoa v2.ID := h.1 _ h2
  have hkk : k1 = k2 := by rw [hk1, hk2, hid]
  subst hkk
  rw [nodup_keys_lookup_eq h.2 h1 h2]

theorem storeInv_insert {S : Store} {k : String} {v : Subscription}
    (h : StoreInv S) (hk : k = itoa v.ID) : StoreInv (insertKey k v S) := by
  constructor
  · intro e he
    rcases mem_insertKey he with he' | he'
    · rw [he', hk]
    · exact h.1 e he'
  · exact keys_insertKey_nodup h.2

theorem storeInv_applyOp {S : Store} (h : StoreInv S) (op : StoreOp) :
    StoreInv (applyOp S op) := by
  match op with
  | .create sub now =>
    exact storeInv_insert h rfl
  | .update id sub now =>
    show StoreInv (mockUpdate S id sub now).1
    unfold mockUpdate
    match hl : lookupKey id S with
    | none => exact h
    | some w =>
      have hid : id = itoa w.ID := h.1 _ (lookupKey_some_mem hl)
      have hat : atoi id = some w.ID := by rw [hid, atoi_itoa]
      apply storeInv_insert h
      show id = itoa ({ sub with ID := (atoi id).getD 0, UpdatedAt := now } : Subscription).ID
      rw [show ({ sub with ID := (atoi id).getD 0, UpdatedAt := now } : Subscription).ID
        = (atoi id).getD 0 from rfl, hat]
      exact hid
  | .del id =>
    show StoreInv (mockDelete S id).1
    unfold mockDelete
    match hl : lookupKey id S with
    | none => exact h
    | some w =>
      constructor
      · intro e he
        exact h.1 e ((eraseKey_sublist id S).subset he)
      · exact keys_eraseKey_nodup h.2

theorem storeInv_empty : StoreInv [] := by
  constructor
  · intro e he; simp at he
  · simp

theorem storeInv_foldl (ops : List StoreOp) :
    ∀ S : Store, StoreInv S → StoreInv (ops.foldl applyOp S) := by
  induction ops with
  | nil => intro S h; exact h
  | cons op rest ih =>
    intro S h
    exact ih _ (storeInv_applyOp h op)

theorem storeInv_runOps (ops : List StoreOp) : StoreInv (runOps ops) :=
  storeInv_foldl ops [] storeInv_empty

theorem lookup_applyOp_id_eq {S : Store} (h : StoreInv S) {k : String}
    {v v' : Subscription} (op : StoreOp)
    (h1 : lookupKey k S = some v) (h2 : lookupKey k (applyOp S op) = some v') :
    v'.ID = v.ID := by
  have hk : k = itoa v.ID := h.1 _ (lookupKey_some_mem h1)
  have key : ∀ w : Subscription,
      lookupKey k (insertKey (itoa w.ID) w S) = some v' → v'.ID = v.ID := by
    intro w hw
    rw [lookupKey_insertKey] at hw
    split_ifs at hw with hkey
    · injection hw with hw
      subst hw
      exact itoa_injective (hkey.trans hk)
    · rw [h1] at hw
      injection hw with hw
      rw [hw]
  match op with
  | .create sub now =>
    exact key _ h2
  | .update id sub now =>
    rw [show applyOp S (.update id sub now) = (mockUpdate S id sub now).1 from rfl] at h2
    unfold mockUpdate at h2
    match hl : lookupKey id S with
    | none =>
      rw [hl] at h2
      rw [h1] at h2
      injection h2 with h2
      rw [h2]
    | some w =>
      rw [hl] at h2
      rw [lookupKey_insertKey] at h2
      split_ifs at h2 with hkey
      · injection h2 with h2
        subst h2
        show (atoi id).getD 0 = v.ID
        rw [hkey, hk, atoi_itoa]
        rfl
      · rw [h1] at h2
        injection h2 with h2
        rw [h2]
  | .del id =>
    rw [show applyOp S (.del id) = (mockDelete S id).1 from rfl] at h2
    unfold mockDelete at h2
    match hl : lookupKey id S with
    | none =>
      rw [hl] at h2
      rw [h1] at h2
      injection h2 with h2
      rw [h2]
    | some w =>
      rw [hl] at h2
      by_cases hkey : id = k
      · subst hkey
        rw [lookupKey_eraseKey_self h.2] at h2
        exact absurd h2 (by simp)
      · rw [lookupKey_eraseKey_ne hkey] at h2
        rw [h1] at h2
        injection h2 with h2
        rw [h2]

/-- C1: for every list of subscription records (well-formed per the data
model, witnessed by an abstract price/start/end view) and every
well-formed query window `[start_period, end_period]`, the cost
calculation returns the sum over all records whose active range
intersects the window of `price * overlapping_months`, with the
intersection clamped via `max` on the start and `min` on the end and the
month count inclusive (absent end treated as unbounded). -/
theorem claim1_cost_is_spec_sum (store : Store) (sp ep : String) (a b : Month)
    (abs : List (Int × Month × Option Month))
    (hsp : parseMonthYear sp = some a) (hep : parseMonthYear ep = some b)
    (hw : monthIndex a ≤ monthIndex b)
    (habs : List.Forall₂ recAbs (storeSubs store) abs) :
    mockCalculateTotalCost store "" "" sp ep =
      .ok ((abs.map fun x => specContribution a b x.1 x.2.1 x.2.2).sum) := by
  unfold mockCalculateTotalCost
  simp only [hsp, hep]
  rw [if_neg (by omega), mockList_no_filters,
    foldl_add_eq_sum (subCost b a) (storeSubs store) 0, zero_add,
    sum_subCost_eq_spec habs]

/-- Witness for C1 at the two-record demo store over `[01-2024, 12-2024]`. -/
theorem claim1_witness :
    parseMonthYear "01-2024" = some ⟨1, 2024⟩ ∧
    parseMonthYear "12-2024" = some ⟨12, 2024⟩ ∧
    monthIndex ⟨1, 2024⟩ ≤ monthIndex ⟨12, 2024⟩ ∧
    List.Forall₂ recAbs (storeSubs demoStore) demoAbs ∧
    mockCalculateTotalCost demoStore "" "" "01-2024" "12-2024" =
      .ok ((demoAbs.map
        fun x => specContribution ⟨1, 2024⟩ ⟨12, 2024⟩ x.1 x.2.1 x.2.2).sum) := by
  have habs : List.Forall₂ recAbs (storeSubs demoStore) demoAbs := by
    refine List.Forall₂.cons ⟨rfl, rfl, Or.inl ⟨rfl, rfl⟩⟩ ?_
    exact List.Forall₂.cons ⟨rfl, rfl, Or.inl ⟨rfl, rfl⟩⟩ List.Forall₂.nil
  exact ⟨rfl, rfl, by decide, habs,
    claim1_cost_is_spec_sum demoStore "01-2024" "12-2024" ⟨1, 2024⟩ ⟨12, 2024⟩
      demoAbs rfl rfl (by decide) habs⟩

/-- C2 counterexample: on an empty record set with the well-formed but
reversed window `[02-2024, 01-2024]`, `CalculateTotalCost` returns the
error "start period cannot be after end period", not a zero total. -/
theorem claim2_counterexample :
    mockCalculateTotalCost [] "" "" "02-2024" "01-2024" =
      Except.error "start period cannot be after end period" ∧
    mockCalculateTotalCost [] "" "" "02-2024" "01-2024" ≠ Except.ok 0 := by
  constructor
  · rfl
  · intro hcontra
    rw [show mockCalculateTotalCost [] "" "" "02-2024" "01-2024" =
      Except.error "start period cannot be after end period" from rfl] at hcontra
    exact Except.noConfusion hcontra

/-- C2 (amended): for well-formed month values the calculator returns no
error whenever `start_period ≤ end_period`; a reversed window is rejected
with the error "start period cannot be after end period" (before any
record is examined) rather than yielding a zero total. -/
theorem claim2_amended_reversed_window_errors (store : Store)
    (u svc sp ep : String) (a b : Month)
    (hsp : parseMonthYear sp = some a) (hep : parseMonthYear ep = some b) :
    (monthIndex a ≤ monthIndex b →
      ∃ n, mockCalculateTotalCost store u svc sp ep = .ok n) ∧
    (monthIndex b < monthIndex a →
      mockCalculateTotalCost store u svc sp ep =
        .error "start period cannot be after end period") := by
  unfold mockCalculateTotalCost
  simp only [hsp, hep]
  constructor
  · intro hle
    rw [if_neg (by omega)]
    exact ⟨_, rfl⟩
  · intro hlt
    rw [if_pos hlt]

/-- Witness for C2 (amended) at the demo store and windows in both orders. -/
theorem claim2_witness :
    parseMonthYear "02-2024" = some ⟨2, 2024⟩ ∧
    parseMonthYear "01-2024" = some ⟨1, 2024⟩ ∧
    ((monthIndex ⟨2, 2024⟩ ≤ monthIndex ⟨1, 2024⟩ →
      ∃ n, mockCalculateTotalCost demoStore "" "" "02-2024" "01-2024" = .ok n) ∧
    (monthIndex ⟨1, 2024⟩ < monthIndex ⟨2, 2024⟩ →
      mockCalculateTotalCost demoStore "" "" "02-2024" "01-2024" =
        .error "start period cannot be after end period")) :=
  ⟨rfl, rfl,
    claim2_amended_reversed_window_errors demoStore "" "" "02-2024" "01-2024"
      ⟨2, 2024⟩ ⟨1, 2024⟩ rfl rfl⟩

/-- C3: a subscription with no end date, over a well-formed window whose
start is at or after the subscription's start month, is charged for every
month of the window at its monthly price. -/
theorem claim3_open_ended_full_window (k : String) (r : Subscription)
    (sp ep : String) (a b s : Month)
    (hr : r.EndDate = none) (hs : parseMonthYear r.StartDate = some s)
    (hsp : parseMonthYear sp = some a) (hep : parseMonthYear ep = some b)
    (hw : monthIndex a ≤ monthIndex b) (hstart : monthIndex s ≤ monthIndex a) :
    mockCalculateTotalCost [(k, r)] "" "" sp ep =
      .ok (r.Price * ((monthIndex b : Int) - (monthIndex a : Int) + 1)) := by
  unfold mockCalculateTotalCost
  simp only [hsp, hep]
  rw [if_neg (by omega)]
  rw [show mockList [(k, r)] "" "" = [r] from by rw [mockList_no_filters]; rfl]
  rw [show List.foldl (fun acc sub => acc + subCost b a sub) 0 [r]
      = 0 + subCost b a r from rfl, zero_add]
  rw [@subCost_eq_spec a b r r.Price s none ⟨rfl, hs, Or.inl ⟨hr, rfl⟩⟩]
  simp only [specContribution]
  rw [Nat.max_eq_right hstart]
  rw [if_pos (by omega)]

/-- Witness for C3: the open-ended Netflix record over `[01-2024, 12-2024]`. -/
theorem claim3_witness :
    netflix.EndDate = none ∧
    parseMonthYear netflix.StartDate = some ⟨1, 2024⟩ ∧
    parseMonthYear "01-2024" = some ⟨1, 2024⟩ ∧
    parseMonthYear "12-2024" = some ⟨12, 2024⟩ ∧
    monthIndex ⟨1, 2024⟩ ≤ monthIndex ⟨12, 2024⟩ ∧
    monthIndex ⟨1, 2024⟩ ≤ monthIndex ⟨1, 2024⟩ ∧
    mockCalculateTotalCost [("1", netflix)] "" "" "01-2024" "12-2024" =
      .ok (netflix.Price *
        ((monthIndex ⟨12, 2024⟩ : Int) - (monthIndex ⟨1, 2024⟩ : Int) + 1)) :=
  ⟨rfl, rfl, rfl, rfl, by decide, by decide,
    claim3_open_ended_full_window "1" netflix "01-2024" "12-2024"
      ⟨1, 2024⟩ ⟨12, 2024⟩ ⟨1, 2024⟩ rfl rfl rfl rfl (by decide) (by decide)⟩

/-- C4: on the store holding exactly the two open-ended subscriptions
Netflix (700, from 01-2024) and Spotify (199, from 02-2024) of the same
user, calculating that user's cost over `[01-2024, 12-2024]` returns
exactly 10589 = 700*12 + 199*11. -/
theorem claim4_end_to_end_total :
    mockCalculateTotalCost demoStore "60601fee-2bf1-4721-ae6f-7636e79a0cba" ""
      "01-2024" "12-2024" = .ok 10589 ∧
    (10589 : Int) = 700 * 12 + 199 * 11 := by
  exact ⟨rfl, by norm_num⟩

/-- C5: listing includes exactly the records matching both optional
filters under AND semantics: a record is in the result iff it is stored,
the user filter is omitted or parses to the record's user id, and the
service filter is omitted or equals the record's service name. -/
theorem claim5_filter_semantics (store : Store) (u svc : String)
    (r : Subscription) :
    r ∈ mockList store u svc ↔
      r ∈ storeSubs store ∧
      (u = "" ∨ ∃ uid, uuidParse u = some uid ∧ r.UserID = uid) ∧
      (svc = "" ∨ r.ServiceName = svc) := by
  rw [mockList_eq_filter, List.mem_filter, listPred_iff]
  exact Iff.rfl

/-- C6 counterexample: updating the single stored row with an
all-omitted request does not leave the omitted `end_period` at its prior
value `some "12-2024"`; the SET clauses always include `end_date`, so the
stored end date is cleared to `none`. -/
theorem claim6_counterexample :
    demoRow.EndDate = some "12-2024" ∧
    sqlUpdate demoTable 1 emptyUpdateReq 5 = .ok [(1, demoRowCleared)] ∧
    demoRowCleared.EndDate ≠ demoRow.EndDate := by
  refine ⟨rfl, by rfl, ?_⟩
  intro hcontra
  rw [show demoRowCleared.EndDate = none from rfl,
    show demoRow.EndDate = some "12-2024" from rfl] at hcontra
  exact Option.noConfusion hcontra

/-- C6 (amended): update changes only the supplied fields among
`service_name`, `price`, `user_id` and `start_date`, each omitted one
(empty string, nil pointer or all-zero UUID sentinel) retaining its prior
value, and never touches `id` or `created_at`; `end_period`, however, is
always overwritten with the request's `end_date` value, so an omitted
`end_date` clears a stored end date and an explicit "no end date" is not
distinguishable from "don't change the end date". -/
theorem claim6_amended_partial_update (t : SqlTable) (id : Int)
    (req : UpdateSubscriptionRequest) (now : Nat) (r : Subscription)
    (h : sqlLookup id t = some r) :
    ∃ t', sqlUpdate t id req now = .ok t' ∧
      sqlLookup id t' = some
        { ID := r.ID
          ServiceName := if req.ServiceName = "" then r.ServiceName else req.ServiceName
          Price := req.Price.getD r.Price
          UserID := if req.UserID = uuidNil then r.UserID else req.UserID
          StartDate := if req.StartDate = "" then r.StartDate else req.StartDate
          EndDate := req.EndDate
          CreatedAt := r.CreatedAt
          UpdatedAt := now } := by
  refine ⟨t.map (fun e => if e.1 = id then (e.1, applyUpdateReq e.2 req now) else e),
    ?_, ?_⟩
  · unfold sqlUpdate
    rw [if_pos (sqlLookup_some_any h)]
  · rw [sqlLookup_map_update req now h]
    congr 1
    unfold applyUpdateReq
    congr 1
    · by_cases hn : req.ServiceName = "" <;> simp [hn]
    · match req.Price with
      | none => rfl
      | some p => rfl
    · by_cases hn : req.UserID = uuidNil <;> simp [hn]
    · by_cases hn : req.StartDate = "" <;> simp [hn]

/-- Witness for C6 (amended) at the single-row demo table. -/
theorem claim6_witness :
    sqlLookup 1 demoTable = some demoRow ∧
    (∃ t', sqlUpdate demoTable 1 emptyUpdateReq 5 = .ok t' ∧
      sqlLookup 1 t' = some
        { ID := demoRow.ID
          ServiceName := if emptyUpdateReq.ServiceName = ""
            then demoRow.ServiceName else emptyUpdateReq.ServiceName
          Price := emptyUpdateReq.Price.getD demoRow.Price
          UserID := if emptyUpdateReq.UserID = uuidNil
            then demoRow.UserID else emptyUpdateReq.UserID
          StartDate := if emptyUpdateReq.StartDate = ""
            then demoRow.StartDate else emptyUpdateReq.StartDate
          EndDate := emptyUpdateReq.EndDate
          CreatedAt := demoRow.CreatedAt
          UpdatedAt := 5 }) :=
  ⟨rfl, claim6_amended_partial_update demoTable 1 emptyUpdateReq 5 demoRow rfl⟩

/-- C7: for any id that does not reference an existing record, `GetByID`,
`Update` and `Delete` of the in-memory store all fail with "subscription
not found" and leave the store unchanged, and the database-backed
`Update` and `Delete` report the same error on a zero-row match. -/
theorem claim7_not_found (store : Store) (id : String) (sub : Subscription)
    (now : Nat) (t : SqlTable) (idn : Int) (req : UpdateSubscriptionRequest)
    (h1 : lookupKey id store = none) (h2 : sqlLookup idn t = none) :
    mockGetByID store id = .error "subscription not found" ∧
    mockUpdate store id sub now = (store, .error "subscription not found") ∧
    mockDelete store id = (store, .error "subscription not found") ∧
    sqlUpdate t idn req now = .error "subscription not found" ∧
    sqlDelete t idn = .error "subscription not found" := by
  refine ⟨?_, ?_, ?_, ?_, ?_⟩
  · unfold mockGetByID; rw [h1]
  · unfold mockUpdate; rw [h1]
  · unfold mockDelete; rw [h1]
  · unfold sqlUpdate; rw [sqlLookup_none_any h2]; rfl
  · unfold sqlDelete; rw [sqlLookup_none_any h2]; rfl

/-- Witness for C7 at an absent string id and an absent integer id. -/
theorem claim7_witness :
    lookupKey "9" demoStore = none ∧
    sqlLookup 9 demoTable = none ∧
    (mockGetByID demoStore "9" = .error "subscription not found" ∧
      mockUpdate demoStore "9" netflix 7 = (demoStore, .error "subscription not found") ∧
      mockDelete demoStore "9" = (demoStore, .error "subscription not found") ∧
      sqlUpdate demoTable 9 emptyUpdateReq 7 = .error "subscription not found" ∧
      sqlDelete demoTable 9 = .error "subscription not found") :=
  ⟨rfl, rfl, claim7_not_found demoStore "9" netflix 7 demoTable 9 emptyUpdateReq rfl rfl⟩

/-- C8 counterexample: `Create` keeps a caller-supplied non-zero id, so
the stored id is not assigned by the store — two creates on the same
empty store that differ only in the request's id field store different
ids (5, kept from the caller, versus 1, the store-assigned `len+1`). -/
theorem claim8_counterexample :
    (mockCreate [] { netflix with ID := 5 } 0).2.ID = 5 ∧
    (mockCreate [] { netflix with ID := 0 } 0).2.ID = 1 ∧
    (5 : Int) ≠ 1 := by
  refine ⟨rfl, rfl, ?_⟩
  decide

/-- C8 (amended): after any sequence of create, update and delete
operations starting from the empty store, every stored record's id is
unique among the stored records (distinct entries carry distinct ids),
and no operation changes the id of a record that survives it; ids are
store-assigned only when the create request carries id 0 (a caller
supplied non-zero id is kept, and a store-assigned `len+1` id can collide
with an existing record after deletions, silently replacing it). -/
theorem claim8_amended_id_invariant (ops : List StoreOp) (op : StoreOp)
    (k : String) (v v' : Subscription)
    (h1 : lookupKey k (runOps ops) = some v)
    (h2 : lookupKey k (applyOp (runOps ops) op) = some v') :
    (∀ e1 ∈ runOps ops, ∀ e2 ∈ runOps ops, e1.2.ID = e2.2.ID → e1 = e2) ∧
    v'.ID = v.ID :=
  ⟨storeInv_uniq (storeInv_runOps ops),
    lookup_applyOp_id_eq (storeInv_runOps ops) op h1 h2⟩

/-- Witness for C8 (amended): create Netflix (store assigns id 1 at key
"1"), then update that key with the Spotify record; the stored id stays 1. -/
theorem claim8_witness :
    lookupKey "1" (runOps [.create { netflix with ID := 0 } 3]) =
      some { netflix with ID := 1, CreatedAt := 3, UpdatedAt := 3 } ∧
    lookupKey "1" (applyOp (runOps [.create { netflix with ID := 0 } 3])
        (.update "1" spotify 4)) =
      some { spotify with ID := 1, UpdatedAt := 4 } ∧
    ((∀ e1 ∈ runOps [.create { netflix with ID := 0 } 3],
        ∀ e2 ∈ runOps [.create { netflix with ID := 0 } 3],
        e1.2.ID = e2.2.ID → e1 = e2) ∧
      Subscription.ID { spotify with ID := 1, UpdatedAt := 4 } =
        Subscription.ID { netflix with ID := 1, CreatedAt := 3, UpdatedAt := 3 }) :=
  ⟨rfl, rfl,
    claim8_amended_id_invariant [.create { netflix with ID := 0 } 3]
      (.update "1" spotify 4) "1" _ _ rfl rfl⟩

/-- C9: a non-empty user filter that is not a well-formed UUID silently
excludes every record — `List` returns the empty result rather than an
error, and a calculation over any well-formed window with such a filter
totals 0. -/
theorem claim9_invalid_uuid_filter (store : Store) (u svc sp ep : String)
    (a b : Month) (hu : u ≠ "") (hpu : uuidParse u = none)
    (hsp : parseMonthYear sp = some a) (hep : parseMonthYear ep = some b)
    (hw : monthIndex a ≤ monthIndex b) :
    mockList store u svc = [] ∧
    mockCalculateTotalCost store u svc sp ep = .ok 0 := by
  have hlist : mockList store u svc = [] := by
    rw [mockList_eq_filter]
    apply List.filter_eq_nil_iff.mpr
    intro r hr
    simp [listPred, hu, hpu]
  refine ⟨hlist, ?_⟩
  unfold mockCalculateTotalCost
  simp only [hsp, hep]
  rw [if_neg (by omega), hlist]
  rfl

/-- Witness for C9 at the demo store with the filter "not-a-uuid". -/
theorem claim9_witness :
    "not-a-uuid" ≠ "" ∧
    uuidParse "not-a-uuid" = none ∧
    parseMonthYear "01-2024" = some ⟨1, 2024⟩ ∧
    parseMonthYear "12-2024" = some ⟨12, 2024⟩ ∧
    monthIndex ⟨1, 2024⟩ ≤ monthIndex ⟨12, 2024⟩ ∧
    (mockList demoStore "not-a-uuid" "" = [] ∧
      mockCalculateTotalCost demoStore "not-a-uuid" "" "01-2024" "12-2024" = .ok 0) :=
  ⟨by decide, rfl, rfl, rfl, by decide,
    claim9_invalid_uuid_filter demoStore "not-a-uuid" "" "01-2024" "12-2024"
      ⟨1, 2024⟩ ⟨12, 2024⟩ (by decide) rfl rfl rfl (by decide)⟩

/-- C10: the calculation never fails because of a malformed stored
record: a record whose start date does not parse contributes 0 (it is
skipped), a record whose end date does not parse is treated as open-ended
(same contribution as with no end date), and the calculation still
returns a total, not an error, for any well-formed window. -/
theorem claim10_malformed_stored_dates (store : Store) (u svc sp ep : String)
    (a b : Month) (r1 r2 : Subscription) (es : String)
    (hsp : parseMonthYear sp = some a) (hep : parseMonthYear ep = some b)
    (hw : monthIndex a ≤ monthIndex b)
    (h1 : parseMonthYear r1.StartDate = none)
    (h2 : r2.EndDate = some es) (h3 : parseMonthYear es = none) :
    subCost b a r1 = 0 ∧
    subCost b a r2 = subCost b a { r2 with EndDate := none } ∧
    ∃ n, mockCalculateTotalCost store u svc sp ep = .ok n := by
  refine ⟨?_, ?_, ?_⟩
  · simp [subCost, h1]
  · match hs2 : parseMonthYear r2.StartDate with
    | none => simp [subCost, hs2]
    | some s2 => simp [subCost, hs2, h2, h3]
  · unfold mockCalculateTotalCost
    simp only [hsp, hep]
    rw [if_neg (by omega)]
    exact ⟨_, rfl⟩

/-- Witness for C10: a record with unparseable start "garbage" and a
record with unparseable end "bad", over `[01-2024, 12-2024]`. -/
theorem claim10_witness :
    parseMonthYear "01-2024" = some ⟨1, 2024⟩ ∧
    parseMonthYear "12-2024" = some ⟨12, 2024⟩ ∧
    monthIndex ⟨1, 2024⟩ ≤ monthIndex ⟨12, 2024⟩ ∧
    parseMonthYear ({ netflix with StartDate := "garbage" } : Subscription).StartDate = none ∧
    ({ spotify with EndDate := some "bad" } : Subscription).EndDate = some "bad" ∧
    parseMonthYear "bad" = none ∧
    (subCost ⟨12, 2024⟩ ⟨1, 2024⟩ { netflix with StartDate := "garbage" } = 0 ∧
      subCost ⟨12, 2024⟩ ⟨1, 2024⟩ { spotify with EndDate := some "bad" } =
        subCost ⟨12, 2024⟩ ⟨1, 2024⟩
          { ({ spotify with EndDate := some "bad" } : Subscription) with EndDate := none } ∧
      ∃ n, mockCalculateTotalCost demoStore "" "" "01-2024" "12-2024" = .ok n) :=
  ⟨rfl, rfl, by decide, rfl, rfl, rfl,
    claim10_malformed_stored_dates demoStore "" "" "01-2024" "12-2024"
      ⟨1, 2024⟩ ⟨12, 2024⟩ { netflix with StartDate := "garbage" }
      { spotify with EndDate := some "bad" } "bad" rfl rfl (by decide) rfl rfl rfl⟩
